import Mathlib

/-!
Verification of the sqlite-rust read-only query engine against its
specification.  The repository contains two parallel source lineages:

* the `database.rs` lineage (`src/src/varint.rs`, `record.rs`, `cell.rs`,
  `page.rs`, `header.rs`, `database.rs`, `query.rs`), and
* the `db.rs` lineage (`src/src/db.rs`, `src/src/main.rs`,
  `src/context/sqlite.rs`, `src/context/varint.rs`, `src/context/sql.rs`).

Bytes are modelled as `Nat` (each `< 256` at use sites); machine integers are
modelled as `Nat`/`Int` — all arithmetic performed by the modelled functions
stays well inside 63 bits, so no wrap-around modelling is required (this is
argued at each definition).  Fallible Rust paths are modelled with explicit
outcome types: `nom` parse errors and `anyhow` errors map to an `error`
constructor, and Rust panics (`assert!`, `unwrap`, `expect`, `todo!`,
out-of-bounds indexing) map to a `crash` constructor.
-/

/-- Outcome of a byte-level parser: `ok rest value`, a recoverable parse
error (`nom`/`anyhow` error results in the source), or a Rust panic
(`assert!`/`unwrap`/`todo!`/index out of bounds). -/
inductive PResult (α : Type) where
  | ok (rest : List Nat) (val : α)
  | error
  | crash
deriving DecidableEq, Repr

namespace ByteParse

/-- Take `n` bytes from the front; `none` models an input-exhausted parse
error (`nom` `take`). -/
def takeBytes (n : Nat) (input : List Nat) : Option (List Nat × List Nat) :=
  if n ≤ input.length then some (input.take n, input.drop n) else none

/-- Big-endian 16-bit read (`nom` `be_u16`). -/
def beU16 (input : List Nat) : Option (Nat × List Nat) :=
  match input with
  | b0 :: b1 :: rest => some (b0 * 256 + b1, rest)
  | _ => none

/-- Big-endian 32-bit read (`nom` `be_u32`). -/
def beU32 (input : List Nat) : Option (Nat × List Nat) :=
  match input with
  | b0 :: b1 :: b2 :: b3 :: rest =>
      some (((b0 * 256 + b1) * 256 + b2) * 256 + b3, rest)
  | _ => none

/-- Single-byte read (`nom` `u8`). -/
def u8 (input : List Nat) : Option (Nat × List Nat) :=
  match input with
  | b :: rest => some (b, rest)
  | _ => none

end ByteParse

namespace SrcVarint

/-- Model of `high_bit` from `src/src/varint.rs`: `(byte & 0xf0) >> 7 == 1`. -/
def highBit (b : Nat) : Bool :=
  ((b &&& 0xf0) >>> 7) == 1

/-- Loop body of `varint` from `src/src/varint.rs`.  `b` is `input[i]`,
already folded into `value`.  While `high_bit(input[i]) && i < 8`, the
next byte is read (out of bounds ⇒ Rust slice-index panic, modelled as
`none`) and its low 7 bits are appended.  The loop condition `i < 8` is
carried structurally as `fuel = 8 - i`, so `fuel = 0` is exactly the
`i = 8` exit.  The accumulated value occupies at most 9·7 = 63 bits, so
`i64` arithmetic never overflows and plain `Nat` arithmetic is exact. -/
def varintGo (input : List Nat) (b : Nat) (i : Nat) (value : Nat) :
    Nat → Option (Nat × Nat)
  | 0 => some (i + 1, value)
  | fuel + 1 =>
    if highBit b then
      match input.get? (i + 1) with
      | none => none
      | some b2 =>
          varintGo input b2 (i + 1) ((value <<< 7) ||| (b2 &&& 0x7f)) fuel
    else
      some (i + 1, value)

/-- Model of `varint` from `src/src/varint.rs`.  Returns `(bytes_consumed, value)`;
`none` models the panic on an empty / exhausted input slice. -/
def varint (input : List Nat) : Option (Nat × Nat) :=
  match input.get? 0 with
  | none => none
  | some b => varintGo input b 0 (b &&& 0x7f) 8

end SrcVarint

namespace CtxVarint

/-- Loop of `read_varint` from `src/context/varint.rs`.  `fuel` bounds the
iteration count; the loop runs at most 9 times (it breaks when
`bytes_read == 9`), so any `fuel ≥ 9` is exact.  `u64` arithmetic never
overflows: after 8 bytes `result < 2^56`, and the final
`(result << 7) | byte` stays below `2^63`. -/
def readVarintGo (bytes : List Nat) (result : Nat) (bytesRead : Nat)
    (fuel : Nat) : Option (Nat × Nat) :=
  match fuel with
  | 0 => none
  | fuel + 1 =>
    match bytes.get? bytesRead with
    | none => none
    | some byte =>
      let bytesRead := bytesRead + 1
      if bytesRead == 9 then
        some ((result <<< 7) ||| byte, bytesRead)
      else
        let result := (result <<< 7) ||| (byte &&& 0b01111111)
        if byte &&& 0b10000000 == 0 then
          some (result, bytesRead)
        else
          readVarintGo bytes result bytesRead fuel

/-- Model of `read_varint` from `src/context/varint.rs`: returns
`(value, bytes_read)`; `none` models the `anyhow` error on exhausted
input ("Unexpected end of bytes"). -/
def readVarint (bytes : List Nat) : Option (Nat × Nat) :=
  readVarintGo bytes 0 0 9

end CtxVarint

namespace SrcRecord

/-- Serial ("column") types from `src/src/record.rs` (`enum ColumnType`). -/
inductive ColumnType where
  | null
  | i8
  | i16
  | i24
  | i32
  | i48
  | i64
  | f64
  | zero
  | one
  | blob (size : Nat)
  | text (size : Nat)
deriving DecidableEq, Repr

/-- Model of `ColumnType::try_from` from `src/src/record.rs`; `none` models the
`Err` on the reserved serial types 10 and 11 (turned into a panic by the
caller's `expect`). -/
def ColumnType.tryFrom : Nat → Option ColumnType
  | 0 => some .null
  | 1 => some .i8
  | 2 => some .i16
  | 3 => some .i24
  | 4 => some .i32
  | 5 => some .i48
  | 6 => some .i64
  | 7 => some .f64
  | 8 => some .zero
  | 9 => some .one
  | 10 => none
  | 11 => none
  | v => if v % 2 == 0 then some (.blob ((v - 12) / 2)) else some (.text ((v - 13) / 2))

/-- Decoded record values from `src/src/record.rs` (`enum Value`).  TEXT
and BLOB keep their raw payload bytes: the source's UTF-8 decoding
(`expect` panic on invalid UTF-8) is not modelled — no claim depends on
it.  `Real` is unreachable here because the `f64` decoding arm of the
source is `todo!`. -/
inductive RValue where
  | null
  | integer (n : Int)
  | blob (bytes : List Nat)
  | text (bytes : List Nat)
deriving DecidableEq, Repr

/-- Model of `RecordType` from `src/src/record.rs`. -/
inductive RecordType where
  | table
  | index
deriving DecidableEq, Repr

/-- A record as decoded by `Record::parse` (`struct Record`). -/
structure Record where
  values : List RValue
deriving DecidableEq, Repr

/-- Big-endian signed 8-bit value (`i8` arm of `Record::parse`). -/
def toI8 (b : Nat) : Int :=
  if b < 128 then (b : Int) else (b : Int) - 256

/-- Big-endian signed 16-bit value (`i16::from_be_bytes`). -/
def toI16 (b0 b1 : Nat) : Int :=
  let v := b0 * 256 + b1
  if v < 32768 then (v : Int) else (v : Int) - 65536

/-- Big-endian signed 32-bit value (`i32::from_be_bytes`). -/
def toI32 (b0 b1 b2 b3 : Nat) : Int :=
  let v := ((b0 * 256 + b1) * 256 + b2) * 256 + b3
  if v < 2147483648 then (v : Int) else (v : Int) - 4294967296

/-- The projected column name governing the rowid-alias test of
`Record::parse`: `column_names[column_indices.iter().position(|j| i == *j).unwrap()]`.
The `position` call is only evaluated under `to_include`, so it is always
`some`; an out-of-range `column_names` index is modelled as `none`
(callers keep the two lists the same length, making it unreachable). -/
def aliasName (columnNames : List String) (columnIndices : List Nat) (i : Nat) :
    Option String :=
  (columnIndices.findIdx? (fun j => j == i)).bind columnNames.get?

/-- One iteration of the value loop of `Record::parse`: decode the value
for column `i` of serial type `ct`, consuming its payload bytes.  Returns
the value when the column is projected (`to_include`), `none` otherwise.
The `i48`/`i64`/`f64` arms are `todo!` in the source (`crash`); short
payload reads are `nom` errors.  The rowid-alias substitution happens in
the `null` arm exactly when the record is a table record and the
projected column name is `"id"`. -/
def decodeColumn (recordType : RecordType) (rowId : Nat)
    (columnNames : List String) (columnIndices : List Nat) (i : Nat)
    (ct : ColumnType) (rest : List Nat) : PResult (Option RValue) :=
  let toInclude := columnIndices.contains i
  let isRowIdAlias :=
    toInclude && (aliasName columnNames columnIndices i == some "id")
  match ct with
  | .null =>
      if toInclude then
        if recordType == .table && isRowIdAlias then
          .ok rest (some (.integer (rowId : Int)))
        else
          .ok rest (some .null)
      else .ok rest none
  | .i8 =>
      match rest with
      | [] => .error
      | b :: rest => .ok rest (if toInclude then some (.integer (toI8 b)) else none)
  | .i16 =>
      match rest with
      | b0 :: b1 :: rest =>
          .ok rest (if toInclude then some (.integer (toI16 b0 b1)) else none)
      | _ => .error
  | .i24 =>
      match rest with
      | b0 :: b1 :: b2 :: rest =>
          .ok rest (if toInclude then some (.integer (toI32 0 b0 b1 b2)) else none)
      | _ => .error
  | .i32 =>
      match rest with
      | b0 :: b1 :: b2 :: b3 :: rest =>
          .ok rest (if toInclude then some (.integer (toI32 b0 b1 b2 b3)) else none)
      | _ => .error
  | .i48 => .crash
  | .i64 => .crash
  | .f64 => .crash
  | .zero => .ok rest (if toInclude then some (.integer 0) else none)
  | .one => .ok rest (if toInclude then some (.integer 0) else none)
  | .blob size =>
      match ByteParse.takeBytes size rest with
      | none => .error
      | some (bs, rest) => .ok rest (if toInclude then some (.blob bs) else none)
  | .text size =>
      match ByteParse.takeBytes size rest with
      | none => .error
      | some (bs, rest) => .ok rest (if toInclude then some (.text bs) else none)

/-- The value loop of `Record::parse`, folded over the decoded serial
types with the running column index `i`. -/
def decodeColumns (recordType : RecordType) (rowId : Nat)
    (columnNames : List String) (columnIndices : List Nat) (i : Nat) :
    List ColumnType → List Nat → PResult (List RValue)
  | [], rest => .ok rest []
  | ct :: cts, rest =>
    match decodeColumn recordType rowId columnNames columnIndices i ct rest with
    | .ok rest v =>
      match decodeColumns recordType rowId columnNames columnIndices (i + 1) cts rest with
      | .ok rest2 vs => .ok rest2 (v.toList ++ vs)
      | .error => .error
      | .crash => .crash
    | .error => .error
    | .crash => .crash

/-- The record-header loop of `Record::parse`: read serial-type varints
while `header_bytes_read < header_size`.  Every iteration consumes at
least one byte, so `fuel = header_size` iterations always suffice; fuel
exhaustion (modelled `crash`) is unreachable.  A failing varint read is
the source's slice-index panic, and a reserved serial type is the
source's `expect` panic. -/
def readColumnTypes (fuel : Nat) (rest : List Nat) (headerRead headerSize : Nat) :
    PResult (List ColumnType) :=
  match fuel with
  | 0 => .crash
  | fuel + 1 =>
    if headerRead < headerSize then
      match SrcVarint.varint rest with
      | none => .crash
      | some (consumed, v) =>
        match ColumnType.tryFrom v with
        | none => .crash
        | some ct =>
          match readColumnTypes fuel (rest.drop consumed) (headerRead + consumed) headerSize with
          | .ok rest2 cts => .ok rest2 (ct :: cts)
          | .error => .error
          | .crash => .crash
    else .ok rest []

/-- Model of `Record::parse` from `src/src/record.rs`: for table records first the
cell's rowid varint, then the record header (self-inclusive size followed
by serial types), then the value loop.  The `row_id.unwrap()` in the
rowid-alias branch is guarded by `record_type == Table`, under which the
rowid is always present; the model passes the decoded rowid (defaulting
to 0 in the unreachable index case). -/
def recordParse (input : List Nat) (columnNames : List String)
    (columnIndices : List Nat) (recordType : RecordType) : PResult Record :=
  let step1 : Option (Nat × List Nat) :=
    if recordType == .table then
      match SrcVarint.varint input with
      | none => none
      | some (c, v) => some (v, input.drop c)
    else some (0, input)
  match step1 with
  | none => .crash
  | some (rowId, input) =>
    match SrcVarint.varint input with
    | none => .crash
    | some (hc, headerSize) =>
      match readColumnTypes headerSize (input.drop hc) hc headerSize with
      | .error => .error
      | .crash => .crash
      | .ok rest cts =>
        match decodeColumns recordType rowId columnNames columnIndices 0 cts rest with
        | .ok rest2 vs => .ok rest2 ⟨vs⟩
        | .error => .error
        | .crash => .crash

end SrcRecord

namespace CtxRecord

/-- Decoded record values of the `db.rs` lineage (`Value` of
`src/context/sqlite_value.rs`).  TEXT and BLOB keep raw payload bytes; a
double is kept as its 8-byte big-endian IEEE-754 bit pattern. -/
inductive CValue where
  | null
  | int (n : Int)
  | real (bits : Nat)
  | blob (bytes : List Nat)
  | text (bytes : List Nat)
deriving DecidableEq, Repr

/-- Big-endian signed integer of `w` bytes, two's-complement
sign-extended. -/
def beSigned (w : Nat) (bytes : List Nat) : Option (Int × List Nat) :=
  match ByteParse.takeBytes w bytes with
  | none => none
  | some (bs, rest) =>
    let v : Nat := bs.foldl (fun acc b => acc * 256 + b) 0
    some (if v < 2 ^ (8 * w - 1) then (v : Int) else (v : Int) - 2 ^ (8 * w), rest)

/-- Modelled from the spec: `Value::from_bytes` lives in
`src/context/sqlite_value.rs`, which is not under `src/`.  Decoding
follows spec §4.5/§3: 0=NULL; 1..6=big-endian signed integer of widths
1,2,3,4,6,8; 7=IEEE-754 double (kept as its bit pattern); 8=integer 0;
9=integer 1; 10,11 reserved (error); N≥12 even → BLOB of length
(N−12)/2; N≥13 odd → TEXT of length (N−13)/2.  Returns the value and the
remaining payload bytes; `none` is a decode error. -/
def valueFromBytes (serialType : Nat) (bytes : List Nat) :
    Option (CValue × List Nat) :=
  match serialType with
  | 0 => some (.null, bytes)
  | 1 => (beSigned 1 bytes).map (fun p => (.int p.1, p.2))
  | 2 => (beSigned 2 bytes).map (fun p => (.int p.1, p.2))
  | 3 => (beSigned 3 bytes).map (fun p => (.int p.1, p.2))
  | 4 => (beSigned 4 bytes).map (fun p => (.int p.1, p.2))
  | 5 => (beSigned 6 bytes).map (fun p => (.int p.1, p.2))
  | 6 => (beSigned 8 bytes).map (fun p => (.int p.1, p.2))
  | 7 =>
    match ByteParse.takeBytes 8 bytes with
    | none => none
    | some (bs, rest) => some (.real (bs.foldl (fun acc b => acc * 256 + b) 0), rest)
  | 8 => some (.int 0, bytes)
  | 9 => some (.int 1, bytes)
  | 10 => none
  | 11 => none
  | n =>
    if n % 2 == 0 then
      (ByteParse.takeBytes ((n - 12) / 2) bytes).map (fun p => (.blob p.1, p.2))
    else
      (ByteParse.takeBytes ((n - 13) / 2) bytes).map (fun p => (.text p.1, p.2))

/-- Loop of `Record::from_bytes` from `src/context/sqlite.rs`: while
header bytes remain, read a serial-type varint and decode its value; if
the decoded value is `Null` and no value has been pushed yet (`isFirst`),
substitute `Int(row_id)`.  Each iteration consumes at least one header
byte, so `fuel = header length` suffices; fuel exhaustion (`crash`) is
unreachable. -/
def fromBytesGo (rowId : Nat) (fuel : Nat) (header : List Nat)
    (bytes : List Nat) (isFirst : Bool) : PResult (List CValue) :=
  match header with
  | [] => .ok bytes []
  | _ =>
    match fuel with
    | 0 => .crash
    | fuel + 1 =>
      match CtxVarint.readVarint header with
      | none => .error
      | some (serial, consumed) =>
        match valueFromBytes serial bytes with
        | none => .error
        | some (v, bytes2) =>
          let v := match v with
            | .null => if isFirst then .int (rowId : Int) else .null
            | v => v
          match fromBytesGo rowId fuel (header.drop consumed) bytes2 false with
          | .ok rest vs => .ok rest (v :: vs)
          | .error => .error
          | .crash => .crash

/-- Model of `Record::from_bytes` from `src/context/sqlite.rs` (lines 342–363):
read the self-inclusive header-size varint, split off the header
(`split_at` panics — `crash` — when the header overruns the buffer),
then run the serial-type loop with the rowid-substitution rule. -/
def fromBytes (rowId : Nat) (bytes : List Nat) : PResult (List CValue) :=
  match CtxVarint.readVarint bytes with
  | none => .error
  | some (headerSize, hvb) =>
    if headerSize < hvb then .crash
    else
      let hlen := headerSize - hvb
      let bytes := bytes.drop hvb
      if hlen ≤ bytes.length then
        fromBytesGo rowId hlen (bytes.take hlen) (bytes.drop hlen) true
      else .crash

end CtxRecord

namespace CtxCell

/-- Model of `LeafTableCell` from `src/context/sqlite.rs`: rowid, decoded payload
record, and the overflow descriptor `(first overflow page, spilled byte
count)` when the declared payload exceeds the in-page bytes. -/
structure LeafTableCellM where
  rowId : Nat
  payload : List CtxRecord.CValue
  overflow : Option (Nat × Nat)
deriving DecidableEq, Repr

/-- Model of `LeafTableCell::from_bytes` from `src/context/sqlite.rs` (lines
208–233): payload-size varint, rowid varint; when `payload_size`
exceeds the remaining bytes the last 4 bytes are the first overflow page
number, an `Overflow` descriptor is recorded and the record is decoded
FROM THE TRUNCATED in-page prefix — the function still returns `Ok`. -/
def leafTableFromBytes (bytes : List Nat) : PResult LeafTableCellM :=
  match CtxVarint.readVarint bytes with
  | none => .error
  | some (payloadSize, c1) =>
    let bytes := bytes.drop c1
    match CtxVarint.readVarint bytes with
    | none => .error
    | some (rowId, c2) =>
      let bytes := bytes.drop c2
      if payloadSize > bytes.length then
        if bytes.length < 4 then .error
        else
          let point := bytes.length - 4
          let payload := bytes.take point
          let overflowPage := (bytes.drop point).foldl (fun acc b => acc * 256 + b) 0
          match CtxRecord.fromBytes rowId payload with
          | .ok rest vs =>
              .ok rest ⟨rowId, vs, some (overflowPage, payloadSize - point)⟩
          | .error => .error
          | .crash => .crash
      else
        match CtxRecord.fromBytes rowId bytes with
        | .ok rest vs => .ok rest ⟨rowId, vs, none⟩
        | .error => .error
        | .crash => .crash

end CtxCell

namespace SrcCell

/-- Model of `BTreePageType` from `src/src/page.rs`. -/
inductive BTreePageType where
  | tableInterior
  | tableLeaf
  | indexInterior
  | indexLeaf
deriving DecidableEq, Repr

/-- Model of `Cell` from `src/src/cell.rs`. -/
inductive Cell where
  | tableLeaf (record : SrcRecord.Record)
  | tableInterior (leftChildPointer : Nat) (key : Nat)
  | indexLeaf (record : SrcRecord.Record)
  | indexInterior (leftChildPointer : Nat) (record : SrcRecord.Record)
deriving DecidableEq, Repr

/-- The overflow gate of `Cell::parse` (`src/src/cell.rs` lines 39–67)
followed by the per-variant cell parsing.  For payload-bearing variants
the payload-size varint is read and the in-page capacity `x` computed
(`usable − 35` for table leaves, `(usable − 12)·64/255 − 23` otherwise);
when `payload_size > x` the source hits `todo!("overflow …")` — a panic,
modelled as `crash`.  The source also computes `m` and `k`, which feed
only the `todo!` panic message and are therefore omitted.  The
subtractions use `Nat` truncation; for the usable page sizes the engine
passes (≥ 512 − 255) they do not underflow. -/
def cellParse (input : List Nat) (ty : BTreePageType) (usablePageSize : Nat)
    (columnNames : List String) (columnIndices : List Nat) : PResult Cell :=
  let step1 : Option (Option Nat × List Nat) :=
    if ty == .indexInterior then
      match ByteParse.beU32 input with
      | none => none
      | some (p, rest) => some (some p, rest)
    else some (none, input)
  match step1 with
  | none => .error
  | some (leftChild, input) =>
    let gate : PResult Unit :=
      if ty == .tableLeaf || ty == .indexInterior || ty == .indexLeaf then
        match SrcVarint.varint input with
        | none => .crash
        | some (c, payloadSize) =>
          let x := if ty == .tableLeaf then usablePageSize - 35
                   else ((usablePageSize - 12) * 64 / 255) - 23
          if payloadSize > x then .crash
          else .ok (input.drop c) ()
      else .ok input ()
    match gate with
    | .error => .error
    | .crash => .crash
    | .ok input2 _ =>
      match ty with
      | .tableInterior =>
        match ByteParse.beU32 input2 with
        | none => .error
        | some (child, rest) =>
          match SrcVarint.varint rest with
          | none => .crash
          | some (c, key) => .ok (rest.drop c) (.tableInterior child key)
      | .tableLeaf =>
        match SrcRecord.recordParse input2 columnNames columnIndices .table with
        | .ok rest r => .ok rest (.tableLeaf r)
        | .error => .error
        | .crash => .crash
      | .indexInterior =>
        match leftChild with
        | none => .crash
        | some lc =>
          match SrcRecord.recordParse input2 columnNames columnIndices .index with
          | .ok rest r => .ok rest (.indexInterior lc r)
          | .error => .error
          | .crash => .crash
      | .indexLeaf =>
        match SrcRecord.recordParse input2 columnNames columnIndices .index with
        | .ok rest r => .ok rest (.indexLeaf r)
        | .error => .error
        | .crash => .crash

end SrcCell

namespace SrcHeader

/-- Model of `FormatVersion` from `src/src/header.rs`. -/
inductive FormatVersion where
  | legacy
  | writeAheadLog
deriving DecidableEq, Repr

/-- Model of `FormatVersion::try_from`; `none` is the `InvalidValueError` result
(propagated as a parse ERROR, not a panic). -/
def FormatVersion.tryFrom : Nat → Option FormatVersion
  | 1 => some .legacy
  | 2 => some .writeAheadLog
  | _ => none

/-- Model of `TextEncoding` from `src/src/header.rs`. -/
inductive TextEncoding where
  | utf8
  | utf16le
  | utf16be
deriving DecidableEq, Repr

/-- Model of `TextEncoding::try_from`; `none` is the `InvalidValueError` result. -/
def TextEncoding.tryFrom : Nat → Option TextEncoding
  | 1 => some .utf8
  | 2 => some .utf16le
  | 3 => some .utf16be
  | _ => none

/-- Model of `Header` from `src/src/header.rs`. -/
structure Header where
  pageSize : Nat
  writeVersion : FormatVersion
  readVersion : FormatVersion
  endPageReservedBytes : Nat
  fileChangeCounter : Nat
  sizeInPages : Nat
  firstFreelistTrunkPage : Nat
  numFreelistPages : Nat
  schemaCookie : Nat
  schemaFormat : Nat
  defaultPageCacheSize : Nat
  largestRootBtreePage : Nat
  textEncoding : TextEncoding
  userVersion : Nat
  incrementalVacuumMode : Bool
  applicationId : Nat
  versionValidFor : Nat
  sqliteVersionNumber : Nat
deriving DecidableEq, Repr

/-- The 16 magic bytes `"SQLite format 3\0"`. -/
def magicBytes : List Nat :=
  [0x53, 0x51, 0x4c, 0x69, 0x74, 0x65, 0x20, 0x66,
   0x6f, 0x72, 0x6d, 0x61, 0x74, 0x20, 0x33, 0x00]

/-- Model of `Header::parse` from `src/src/header.rs` (lines 97–194).  The magic
string, the three payload fractions, the incremental-vacuum flag and the
20 reserved zero bytes are checked with `assert!`/`assert_eq!` — Rust
panics, modelled as `crash`.  The page size, format versions, schema
format and text encoding are checked with proper `Err` results, modelled
as `error`. -/
def headerParse (input : List Nat) : PResult Header :=
  match ByteParse.takeBytes 16 input with
  | none => .error
  | some (magic, input) =>
    if magic ≠ magicBytes then .crash
    else
    match ByteParse.beU16 input with
    | none => .error
    | some (psRaw, input) =>
      let pageSize? : Option Nat :=
        if psRaw == 1 then some 65536
        else if 512 ≤ psRaw && (psRaw &&& (psRaw - 1)) == 0 then some psRaw
        else none
      match pageSize? with
      | none => .error
      | some pageSize =>
        match ByteParse.u8 input with
        | none => .error
        | some (wv, input) =>
          match FormatVersion.tryFrom wv with
          | none => .error
          | some writeVersion =>
            match ByteParse.u8 input with
            | none => .error
            | some (rv, input) =>
              match FormatVersion.tryFrom rv with
              | none => .error
              | some readVersion =>
                match ByteParse.u8 input with
                | none => .error
                | some (reserved, input) =>
                  match ByteParse.u8 input with
                  | none => .error
                  | some (maxFrac, input) =>
                    if maxFrac ≠ 64 then .crash
                    else
                    match ByteParse.u8 input with
                    | none => .error
                    | some (minFrac, input) =>
                      if minFrac ≠ 32 then .crash
                      else
                      match ByteParse.u8 input with
                      | none => .error
                      | some (leafFrac, input) =>
                        if leafFrac ≠ 32 then .crash
                        else
                        match ByteParse.beU32 input with
                        | none => .error
                        | some (fcc, input) =>
                          match ByteParse.beU32 input with
                          | none => .error
                          | some (sizePages, input) =>
                            match ByteParse.beU32 input with
                            | none => .error
                            | some (freelistTrunk, input) =>
                              match ByteParse.beU32 input with
                              | none => .error
                              | some (numFreelist, input) =>
                                match ByteParse.beU32 input with
                                | none => .error
                                | some (cookie, input) =>
                                  match ByteParse.beU32 input with
                                  | none => .error
                                  | some (schemaFormat, input) =>
                                    if ¬ (1 ≤ schemaFormat && schemaFormat ≤ 4) then .error
                                    else
                                    match ByteParse.beU32 input with
                                    | none => .error
                                    | some (cacheSize, input) =>
                                      match ByteParse.beU32 input with
                                      | none => .error
                                      | some (largestRoot, input) =>
                                        match ByteParse.beU32 input with
                                        | none => .error
                                        | some (encRaw, input) =>
                                          match TextEncoding.tryFrom encRaw with
                                          | none => .error
                                          | some enc =>
                                            match ByteParse.beU32 input with
                                            | none => .error
                                            | some (userVersion, input) =>
                                              match ByteParse.beU32 input with
                                              | none => .error
                                              | some (ivm, input) =>
                                                if ¬ (ivm == 0 || ivm == 1) then .crash
                                                else
                                                match ByteParse.beU32 input with
                                                | none => .error
                                                | some (appId, input) =>
                                                  match ByteParse.takeBytes 20 input with
                                                  | none => .error
                                                  | some (zeros, input) =>
                                                    if ¬ zeros.all (fun b => b == 0) then .crash
                                                    else
                                                    match ByteParse.beU32 input with
                                                    | none => .error
                                                    | some (vvf, input) =>
                                                      match ByteParse.beU32 input with
                                                      | none => .error
                                                      | some (svn, input) =>
                                                        .ok input
                                                          ⟨pageSize, writeVersion, readVersion,
                                                           reserved, fcc, sizePages, freelistTrunk,
                                                           numFreelist, cookie, schemaFormat,
                                                           cacheSize, largestRoot, enc, userVersion,
                                                           ivm ≠ 0, appId, vvf, svn⟩

end SrcHeader

namespace CtxCell

/-- Model of `LeafIndexCell` from `src/context/sqlite.rs`: the referenced table
rowid (the record's trailing value), the remaining payload values, and
the overflow descriptor. -/
structure LeafIndexCellM where
  rowId : Nat
  payload : List CtxRecord.CValue
  overflow : Option (Nat × Nat)
deriving DecidableEq, Repr

/-- Model of `LeafIndexCell::from_bytes` from `src/context/sqlite.rs` (lines
284–313): payload-size varint (no rowid varint), the same silent
truncation on overflow, then `Record::from_bytes` WITH `row_id = 0`; the
trailing record value must be a non-negative integer (the `anyhow` error
and the failing `u64::try_from` are both `error`) and is stripped into
`rowId`. -/
def leafIndexFromBytes (bytes : List Nat) : PResult LeafIndexCellM :=
  match CtxVarint.readVarint bytes with
  | none => .error
  | some (payloadSize, c1) =>
    let bytes := bytes.drop c1
    let split : Option (List Nat × Option (Nat × Nat)) :=
      if payloadSize > bytes.length then
        if bytes.length < 4 then none
        else
          let point := bytes.length - 4
          some (bytes.take point,
                some ((bytes.drop point).foldl (fun acc b => acc * 256 + b) 0,
                      payloadSize - point))
      else some (bytes, none)
    match split with
    | none => .error
    | some (payload, overflow) =>
      match CtxRecord.fromBytes 0 payload with
      | .ok rest vs =>
        match vs.getLast? with
        | some (.int r) =>
            if r < 0 then .error
            else .ok rest ⟨r.toNat, vs.dropLast, overflow⟩
        | _ => .error
      | .error => .error
      | .crash => .crash

end CtxCell

namespace SrcDb

/-- Model of `Value` from `src/src/record.rs` at the B-tree level.  `Real(f64)` is
modelled with `Rat`: it represents every finite double exactly, and no
claim in scope involves NaN/infinities (whose `partial_cmp` would be
`none`).  Rust's byte-lexicographic `String` order is modelled as the
codepoint-lexicographic order on `String.data` — identical for valid
UTF-8, since UTF-8 byte order preserves codepoint order. -/
inductive Value where
  | null
  | integer (n : Int)
  | real (x : Rat)
  | text (s : String)
  | blob (s : String)
deriving DecidableEq, Repr

/-- Three-way comparison of a linear order, as produced by Rust
`partial_cmp` on two values of the same comparable kind. -/
def cmpv {α : Type} [LinearOrder α] (a b : α) : Ordering :=
  if a < b then .lt else if a = b then .eq else .gt

/-- Model of `PartialOrd::partial_cmp` for `Value` (`src/src/record.rs` lines
37–61): `Null` compares with nothing; `Integer`/`Real` compare with their
own kind; `Text` and `Blob` compare with each other by string order;
everything else is `None`. -/
def Value.pcmp : Value → Value → Option Ordering
  | .null, _ => none
  | .integer a, .integer b => some (cmpv a b)
  | .integer _, _ => none
  | .real a, .real b => some (cmpv a b)
  | .real _, _ => none
  | .text a, .text b => some (cmpv a.data b.data)
  | .text a, .blob b => some (cmpv a.data b.data)
  | .text _, _ => none
  | .blob a, .text b => some (cmpv a.data b.data)
  | .blob a, .blob b => some (cmpv a.data b.data)
  | .blob _, _ => none

/-- Model of `PartialEq::eq` for `Value` (`src/src/record.rs` lines 63–87):
`Null` equals nothing (including itself); `Text` and `Blob` cross-compare
by string equality. -/
def Value.beq : Value → Value → Bool
  | .null, _ => false
  | .integer a, .integer b => a == b
  | .integer _, _ => false
  | .real a, .real b => a == b
  | .real _, _ => false
  | .text a, .text b => a == b
  | .text a, .blob b => a == b
  | .text _, _ => false
  | .blob a, .text b => a == b
  | .blob a, .blob b => a == b
  | .blob _, _ => false

/-- Rust `a >= b` on a `PartialOrd`: true iff `partial_cmp` is
`Some(Greater | Equal)`.  This is the descent test
`record.values[0] >= key` of `Database::search_index`. -/
def Value.ge (a b : Value) : Bool :=
  match a.pcmp b with
  | some .gt => true
  | some .eq => true
  | _ => false

/-- Rust `a <= b` on a `PartialOrd`: true iff `partial_cmp` is
`Some(Less | Equal)`.  Used to state the index-tree ordering invariant. -/
def Value.le (a b : Value) : Bool :=
  match a.pcmp b with
  | some .lt => true
  | some .eq => true
  | _ => false

/-- One index entry as `Database::search_index` sees it after
`Page::parse` with projection `[column, "row_id"]`: `record.values[0]`
is the indexed value and `record.values[1]` the rowid.  The rowid is
carried as `Int` directly — index records always end in an integer
serial type, and `as_integer().unwrap()` would panic otherwise. -/
structure IEntry where
  val : Value
  rowId : Int
deriving DecidableEq, Repr

/-! An index B-tree as decoded page by page, at the value level.  A page
is either a leaf (its cells in decoded order — ascending byte offset,
which is NOT key order) or an interior page with its cell array and the
right-most child.  `IndexCells` is the cell array written as an explicit
inductive so that mutual structural recursion (and hence kernel
evaluation) is available. -/
mutual
inductive IndexTree where
  | leaf (entries : List IEntry) : IndexTree
  | interior (cells : IndexCells) (rightmost : IndexTree) : IndexTree
inductive IndexCells where
  | nil : IndexCells
  | cons (entry : IEntry) (child : IndexTree) (rest : IndexCells) : IndexCells
end

/-- The rowids contributed directly by the cells of one interior index
page, in cell order: `Database::search_index` pushes
`record.values[1]` whenever `record.values[0] == key`, while it is
iterating the page's cells. -/
def IndexCells.hits (key : Value) : IndexCells → List Int
  | .nil => []
  | .cons e _ rest =>
      (if Value.beq e.val key then [e.rowId] else []) ++ IndexCells.hits key rest

/-! `Database::search_index` from `src/src/database.rs` (lines 177–248),
at the tree level.  The source runs a worklist: pop a page, push the
right-most child FIRST, then push `left_child_pointer` for every interior
cell with `values[0] >= key` (collecting `values[1]` for every cell with
`values[0] == key`), and on leaves collect `values[1]` of matching cells.
Because the worklist is a LIFO stack, subtrees are visited in REVERSE
cell order and the right-most child last; `IndexCells.searchChildren`
reproduces exactly that emission order. -/
mutual
def IndexTree.search (key : Value) : IndexTree → List Int
  | .leaf entries =>
      entries.filterMap (fun e => if Value.beq e.val key then some e.rowId else none)
  | .interior cells rightmost =>
      IndexCells.hits key cells ++ IndexCells.searchChildren key cells ++
        IndexTree.search key rightmost
def IndexCells.searchChildren (key : Value) : IndexCells → List Int
  | .nil => []
  | .cons e child rest =>
      IndexCells.searchChildren key rest ++
        (if Value.ge e.val key then IndexTree.search key child else [])
end

/-! All index entries stored in a tree, in index order (left subtree,
interior cell entry, later cells, right-most child last).  This is the
specification-side enumeration the probe is compared against. -/
mutual
def IndexTree.entries : IndexTree → List IEntry
  | .leaf es => es
  | .interior cells rm => IndexCells.entriesList cells ++ IndexTree.entries rm
def IndexCells.entriesList : IndexCells → List IEntry
  | .nil => []
  | .cons e child rest =>
      IndexTree.entries child ++ [e] ++ IndexCells.entriesList rest
end

/-- The matching rowid of one entry, shared by the probe and the
specification-side enumeration. -/
def hitOf (key : Value) (e : IEntry) : Option Int :=
  if Value.beq e.val key then some e.rowId else none

/-- Specification-side meaning of the index probe: the rowids of ALL
index entries (leaf and interior) whose indexed value equals the key. -/
def indexMatches (key : Value) (t : IndexTree) : List Int :=
  (IndexTree.entries t).filterMap (hitOf key)

/-! Index B-tree well-formedness: every entry in the subtree hanging off
an interior cell is `<=` the cell's own entry value (the SQLite index
invariant `Database::search_index` relies on when it skips children with
`values[0] < key`). -/
mutual
def IndexTree.wfB : IndexTree → Bool
  | .leaf _ => true
  | .interior cells rm => IndexCells.wfBCells cells && IndexTree.wfB rm
def IndexCells.wfBCells : IndexCells → Bool
  | .nil => true
  | .cons e child rest =>
      (IndexTree.entries child).all (fun x => Value.le x.val e.val) &&
        IndexTree.wfB child && IndexCells.wfBCells rest
end

/-! A table B-tree at the value level: leaves hold decoded projected
records (`record.values`), interior cells hold the upper-bound rowid key
and the child subtree; the right-most child is separate, as in
`Page::parse`. -/
mutual
inductive TableTree where
  | leaf (records : List (List Value)) : TableTree
  | interior (cells : TableCells) (rightmost : TableTree) : TableTree
inductive TableCells where
  | nil : TableCells
  | cons (key : Int) (child : TableTree) (rest : TableCells) : TableCells
end

/-- Model of the lookup `record.values[id_column_index].as_integer().unwrap()` of
`Database::get_by_row_ids`: the projected value of the column named
`"id"`.  The non-integer case would be a Rust panic; it is defaulted to 0
here and never reached on the well-formed records used below (the rowid
alias guarantees an integer in the `id` column). -/
def recRowId (idIdx : Nat) (r : List Value) : Int :=
  match r.getD idIdx .null with
  | .integer n => n
  | _ => 0

/-! `Database::get_full_table` from `src/src/database.rs` (lines
128–175), at the tree level: the worklist pops a page, pushes the
right-most child first and then every interior cell's child, collecting
all leaf records; LIFO order makes later cells come out first and the
right-most child last. -/
mutual
def TableTree.fullScan : TableTree → List (List Value)
  | .leaf rs => rs
  | .interior cells rm =>
      TableCells.fullScanChildren cells ++ TableTree.fullScan rm
def TableCells.fullScanChildren : TableCells → List (List Value)
  | .nil => []
  | .cons _ child rest =>
      TableCells.fullScanChildren rest ++ TableTree.fullScan child
end

/-! `Database::get_by_row_ids` from `src/src/database.rs` (lines
250–310), at the tree level: leaves keep the records whose `id` column
value is contained in `row_ids`; an interior cell's child is pushed iff
`row_ids.iter().any(|id| *id < key)` — STRICTLY less than the upper-bound
key, with no tracking of already-satisfied ids; the right-most child is
always pushed (the source comment reads "TODO: When to follow rightmost
pointer?"). -/
mutual
def TableTree.getByRowIds (rowIds : List Int) (idIdx : Nat) :
    TableTree → List (List Value)
  | .leaf rs => rs.filter (fun r => rowIds.contains (recRowId idIdx r))
  | .interior cells rm =>
      TableCells.getByRowIdsChildren rowIds idIdx cells ++
        TableTree.getByRowIds rowIds idIdx rm
def TableCells.getByRowIdsChildren (rowIds : List Int) (idIdx : Nat) :
    TableCells → List (List Value)
  | .nil => []
  | .cons key child rest =>
      TableCells.getByRowIdsChildren rowIds idIdx rest ++
        (if rowIds.any (fun id => id < key) then
          TableTree.getByRowIds rowIds idIdx child
        else [])
end

/-- The keys of a table interior page's cell array. -/
def TableCells.keys : TableCells → List Int
  | .nil => []
  | .cons k _ rest => k :: TableCells.keys rest

/-! Table B-tree well-formedness (the SQLite invariant): every record in
the subtree under an interior cell has rowid `≤` the cell's key, and
every record under the right-most child has rowid `>` every cell key. -/
mutual
def TableTree.wfB (idIdx : Nat) : TableTree → Bool
  | .leaf _ => true
  | .interior cells rm =>
      TableCells.wfBCells idIdx cells && TableTree.wfB idIdx rm &&
        (TableTree.fullScan rm).all
          (fun r => (TableCells.keys cells).all (fun k => k < recRowId idIdx r))
def TableCells.wfBCells (idIdx : Nat) : TableCells → Bool
  | .nil => true
  | .cons k child rest =>
      (TableTree.fullScan child).all (fun r => recRowId idIdx r ≤ k) &&
        TableTree.wfB idIdx child && TableCells.wfBCells idIdx rest
end

/-- The scan arm of `Query::execute` (`src/src/query.rs` lines 214–235):
full table scan, then the on-the-fly equality filter
`if *value != filter.column_value { continue }` on the projected filter
column. -/
def executeScanPath (t : TableTree) (filterIdx : Nat) (filterValue : Value) :
    List (List Value) :=
  (TableTree.fullScan t).filter
    (fun r => Value.beq (r.getD filterIdx .null) filterValue)

/-- The indexed arm of `Query::execute` (`src/src/query.rs` lines
199–213): `search_index` for the rowid list, then `get_by_row_ids` with
no post-filtering (`need_to_filter = false`). -/
def executeIndexedPath (idx : IndexTree) (t : TableTree) (idIdx : Nat)
    (filterValue : Value) : List (List Value) :=
  TableTree.getByRowIds (IndexTree.search filterValue idx) idIdx t

/-- C1 counterexample data: a single-leaf index whose two entries for key
`"k"` sit in decoded (byte-offset) order `rowid 2` before `rowid 1` — the
order produced by inserting rowids 1 then 2, since cells are carved from
the tail of the page and `Page::parse` iterates offsets ascending. -/
def c1index : IndexTree := .leaf [⟨.text "k", 2⟩, ⟨.text "k", 1⟩]

/-- C1 witness data: an interior index page with one cell (key `"k"`,
rowid 5) over a leaf, and a right-most leaf. -/
def c1wIndex : IndexTree :=
  .interior (.cons ⟨.text "k", 5⟩ (.leaf [⟨.text "b", 3⟩, ⟨.text "k", 4⟩]) .nil)
    (.leaf [⟨.text "z", 9⟩])

/-- C2 failing-input data: a table whose interior root has one cell with
upper-bound key 5 over a leaf holding the record with rowid 5, and a
right-most leaf holding rowid 6. -/
def c2rec5 : List Value := [.integer 5]

/-- C2 failing-input data: the record with rowid 6. -/
def c2rec6 : List Value := [.integer 6]

/-- C2 failing-input data: the table tree. -/
def c2tree : TableTree :=
  .interior (.cons 5 (.leaf [c2rec5]) .nil) (.leaf [c2rec6])

/-- C3 failing-input data: records of a table `(id, email)`. -/
def c3rec5 : List Value := [.integer 5, .text "k"]

/-- C3 failing-input data: the record with rowid 6. -/
def c3rec6 : List Value := [.integer 6, .text "x"]

/-- C3 failing-input data: the table tree (same shape as C2). -/
def c3table : TableTree :=
  .interior (.cons 5 (.leaf [c3rec5]) .nil) (.leaf [c3rec6])

/-- C3 failing-input data: the single-column index on `email`. -/
def c3index : IndexTree := .leaf [⟨.text "k", 5⟩, ⟨.text "x", 6⟩]

end SrcDb

namespace SrcSchema

/-- Model of `ObjectSchema` from `src/src/database.rs`, keeping the field the
`.tables` paths use (the object name). -/
inductive ObjectSchema where
  | table (name : String)
  | index (name : String)
  | view
  | trigger
deriving DecidableEq, Repr

/-- Rust `String` `<=` — byte-lexicographic, equal to the
codepoint-lexicographic order on `String.data` for valid UTF-8. -/
def strLe (a b : String) : Bool := decide (a.data ≤ b.data)

/-- Insertion step of the sort modelling `tables.sort()`. -/
def insertSorted (a : String) : List String → List String
  | [] => [a]
  | b :: bs => if strLe a b then a :: b :: bs else b :: insertSorted a bs

/-- Model of `tables.sort()` of `Schema::table_names`: Rust's stable sort by `Ord`,
modelled as insertion sort — both produce the unique sorted stable
permutation, and since equal keys are equal strings the outputs coincide
element-wise. -/
def sortNames : List String → List String
  | [] => []
  | a :: as => insertSorted a (sortNames as)

/-- Specification-side reference: the table names in schema order, the
order in which the table rows appear in the `sqlite_schema` objects
list. -/
def schemaOrderNames (objects : List ObjectSchema) : List String :=
  objects.filterMap (fun o => match o with | .table n => some n | _ => none)

/-- Model of `Schema::table_names` from `src/src/database.rs` (lines 321–330):
filter the table objects, collect their names, then SORT them
(`tables.sort()`). -/
def tableNames (objects : List ObjectSchema) : List String :=
  sortNames
    (objects.filterMap (fun o => match o with | .table n => some n | _ => none))

end SrcSchema

namespace CtxSQLite

/-- Outcome of `SQLite::page`: a decoded page, an `anyhow` error result,
or a Rust panic. -/
inductive PageResult (P : Type) where
  | ok (p : P)
  | error
  | crash
deriving DecidableEq, Repr

/-- Model of `LazyPage` from `src/context/sqlite.rs`.  The decoded-page payload is
a type parameter: the claim in scope concerns only the bounds behaviour
of the page-array index, never the page contents. -/
inductive LazyPage (P : Type) where
  | unloaded
  | loaded (p : P)
deriving DecidableEq, Repr

/-- Model of `LazyPage::load` (`src/context/sqlite.rs` lines 46–67): a cached page
is returned as is; otherwise the seek/read and `Page::from_bytes` decode
run — abstracted as the function `load` applied to the page number, since
only the bounds behaviour of the caller is claimed. -/
def LazyPage.loadOr {P : Type} (load : Nat → PageResult P) (n : Nat) :
    LazyPage P → PageResult P
  | .loaded p => .ok p
  | .unloaded => load n

/-- Model of `SQLite::new` (`src/context/sqlite.rs` lines 22–33): the page array
is `vec![LazyPage::default(); header.db_page_count as usize]`. -/
def sqliteNew (P : Type) (dbPageCount : Nat) : List (LazyPage P) :=
  List.replicate dbPageCount .unloaded

/-- Model of `SQLite::page` (`src/context/sqlite.rs` lines 34–37):
`self.pages[index].load(&mut self.file, &self.header, index)`.  The slice
index is UNCHECKED — `index ≥ pages.len()` is a Rust panic (`crash`);
`List.get?` returning `none` is exactly that case. -/
def sqlitePage {P : Type} (pages : List (LazyPage P))
    (load : Nat → PageResult P) (n : Nat) : PageResult P :=
  match pages.get? n with
  | none => .crash
  | some lp => lp.loadOr load n

end CtxSQLite

namespace SrcDb

/-- Lemma: `cmpv` returns `eq` exactly on equal arguments. -/
theorem cmpv_eq_iff {α : Type} [LinearOrder α] {a b : α} :
    cmpv a b = .eq ↔ a = b := by
  unfold cmpv
  split_ifs with h1 h2
  · exact iff_of_false (by simp) (ne_of_lt h1)
  · exact iff_of_true rfl h2
  · exact iff_of_false (by simp) h2

/-- Lemma: `cmpv` returns `lt` exactly when the first argument is smaller. -/
theorem cmpv_lt_iff {α : Type} [LinearOrder α] {a b : α} :
    cmpv a b = .lt ↔ a < b := by
  unfold cmpv
  split_ifs with h1 h2
  · exact iff_of_true rfl h1
  · exact iff_of_false (by simp) h1
  · exact iff_of_false (by simp) h1

/-- Transitivity core over any linear order: `a ≤ b` and `b < c` (as
`cmpv` facts) preclude `a = c`. -/
theorem cmpv_chain_ne {α : Type} [LinearOrder α] {a b c : α}
    (h1 : cmpv a b = Ordering.lt ∨ cmpv a b = Ordering.eq)
    (h2 : cmpv b c = Ordering.lt) : ¬ a = c := by
  have hab : a ≤ b := by
    rcases h1 with h | h
    · exact le_of_lt (cmpv_lt_iff.mp h)
    · exact le_of_eq (cmpv_eq_iff.mp h)
  have hbc : b < c := cmpv_lt_iff.mp h2
  intro h
  subst h
  exact absurd (lt_of_le_of_lt hab hbc) (lt_irrefl a)

/-- A true `le` means the partial comparison was `Less` or `Equal`. -/
theorem le_true_pcmp {e c : Value} (h : Value.le e c = true) :
    Value.pcmp e c = some Ordering.lt ∨ Value.pcmp e c = some Ordering.eq := by
  unfold Value.le at h
  rcases hp : Value.pcmp e c with _ | o
  · rw [hp] at h; exact absurd h (by decide)
  · rw [hp] at h
    cases o
    · exact .inl rfl
    · exact .inr rfl
    · exact absurd h (by decide)

/-- A false `ge` means the partial comparison was `Less` or `None`. -/
theorem ge_false_pcmp {c k : Value} (h : Value.ge c k = false) :
    Value.pcmp c k = some Ordering.lt ∨ Value.pcmp c k = none := by
  unfold Value.ge at h
  rcases hp : Value.pcmp c k with _ | o
  · exact .inr rfl
  · rw [hp] at h
    cases o
    · exact .inl rfl
    · exact absurd h (by decide)
    · exact absurd h (by decide)

/-- A true `beq` means the partial comparison was `Equal`. -/
theorem beq_true_pcmp {e k : Value} (h : Value.beq e k = true) :
    Value.pcmp e k = some Ordering.eq := by
  cases e <;> cases k <;>
    first
      | exact absurd h (by intro hh; exact Bool.noConfusion hh)
      | (rename_i a b
         exact congrArg some (cmpv_eq_iff.mpr (eq_of_beq h)))
      | (rename_i a b
         exact congrArg some
           (cmpv_eq_iff.mpr (congrArg String.data (eq_of_beq h))))

/-- The key soundness fact behind skipping index subtrees: if every value
reachable below an interior cell is `<=` the cell value (`le`), and the
cell value is NOT `>=` the search key (`ge` false), then no reachable
value equals the key (`beq` false).  Mirrors the descent rule of
`Database::search_index`. -/
theorem Value.le_ge_absurd {e c k : Value} (h1 : Value.le e c = true)
    (h2 : Value.ge c k = false) : Value.beq e k = false := by
  rcases hb : Value.beq e k with _ | _
  · rfl
  · exfalso
    have hek := beq_true_pcmp hb
    have hec := le_true_pcmp h1
    have hck := ge_false_pcmp h2
    cases e <;> cases c <;> cases k <;>
      first
        | exact Option.noConfusion hek
        | (rcases hec with h | h <;> exact Option.noConfusion h)
        | (rcases hck with hck | hck
           · rcases hec with hec | hec
             · exact cmpv_chain_ne (Or.inl (Option.some.inj hec))
                 (Option.some.inj hck) (cmpv_eq_iff.mp (Option.some.inj hek))
             · exact cmpv_chain_ne (Or.inr (Option.some.inj hec))
                 (Option.some.inj hck) (cmpv_eq_iff.mp (Option.some.inj hek))
           · exact Option.noConfusion hck)

/-- Lemma: `filterMap` of the hit function over a singleton entry list. -/
theorem hitOf_singleton (key : Value) (e : IEntry) :
    ([e] : List IEntry).filterMap (hitOf key) =
      if Value.beq e.val key then [e.rowId] else [] := by
  cases hb : Value.beq e.val key <;> simp [hitOf, hb]

mutual
/-- Exactness of the index probe, tree part: on a well-formed index tree
the multiset of rowids collected by `search` equals the multiset of hits
among ALL stored entries. -/
theorem searchAux (key : Value) :
    ∀ t : IndexTree, IndexTree.wfB t = true →
      ((IndexTree.search key t : List Int) : Multiset Int) =
        ↑((IndexTree.entries t).filterMap (hitOf key))
  | .leaf es, _ => rfl
  | .interior cells rm, h => by
      obtain ⟨h1, h2⟩ :
          IndexCells.wfBCells cells = true ∧ IndexTree.wfB rm = true := by
        simpa [IndexTree.wfB, Bool.and_eq_true] using h
      have ih1 := searchCellsAux key cells h1
      have ih2 := searchAux key rm h2
      show ((IndexCells.hits key cells ++ IndexCells.searchChildren key cells ++
              IndexTree.search key rm : List Int) : Multiset Int) =
          ↑((IndexCells.entriesList cells ++ IndexTree.entries rm).filterMap
              (hitOf key))
      rw [List.filterMap_append, ← Multiset.coe_add, ← Multiset.coe_add,
        ← Multiset.coe_add, ih2, ih1]

/-- Exactness of the index probe, cell-array part: the direct interior
hits plus the recursive results equal the hits among all entries below
the cell array. -/
theorem searchCellsAux (key : Value) :
    ∀ cs : IndexCells, IndexCells.wfBCells cs = true →
      ((IndexCells.hits key cs : List Int) : Multiset Int) +
          ↑(IndexCells.searchChildren key cs) =
        ↑((IndexCells.entriesList cs).filterMap (hitOf key))
  | .nil, _ => by
      show ((([] : List Int) : Multiset Int) + ↑([] : List Int)) =
          ↑(([] : List IEntry).filterMap (hitOf key))
      simp
  | .cons e child rest, h => by
      obtain ⟨hle, hwf, hrest⟩ :
          (IndexTree.entries child).all (fun x => Value.le x.val e.val) = true ∧
            IndexTree.wfB child = true ∧ IndexCells.wfBCells rest = true := by
        simpa [IndexCells.wfBCells, Bool.and_eq_true, and_assoc] using h
      have ihc := searchAux key child hwf
      have ihr := searchCellsAux key rest hrest
      show (((if Value.beq e.val key then [e.rowId] else []) ++
              IndexCells.hits key rest : List Int) : Multiset Int) +
            ↑(IndexCells.searchChildren key rest ++
              (if Value.ge e.val key then IndexTree.search key child else [])) =
          ↑((IndexTree.entries child ++ [e] ++
              IndexCells.entriesList rest).filterMap (hitOf key))
      rw [List.filterMap_append, List.filterMap_append, hitOf_singleton,
        ← Multiset.coe_add, ← Multiset.coe_add, ← Multiset.coe_add,
        ← Multiset.coe_add]
      by_cases hge : Value.ge e.val key = true
      · rw [if_pos hge, ihc, ← ihr]
        abel
      · have hge2 : Value.ge e.val key = false := by
          cases hgeb : Value.ge e.val key
          · rfl
          · exact absurd hgeb hge
        rw [if_neg hge]
        have hchild : (IndexTree.entries child).filterMap (hitOf key) = [] := by
          rw [List.filterMap_eq_nil_iff]
          intro x hx
          have hxle : Value.le x.val e.val = true := by
            simpa using List.all_eq_true.mp hle x hx
          have hbeq := Value.le_ge_absurd hxle hge2
          simp [hitOf, hbeq]
        rw [hchild, ← ihr]
        simp only [Multiset.coe_nil, add_zero, zero_add]
        abel
end

/-- C1 (amended): on every well-formed index B-tree,
`Database::search_index` returns EXACTLY the multiset of rowids of index
entries (leaf and interior alike) whose indexed value equals the key —
but in traversal order, which is NOT in general sorted ascending by
rowid. -/
theorem index_probe_exact_multiset (key : Value) (t : IndexTree)
    (h : IndexTree.wfB t = true) :
    ((IndexTree.search key t : List Int) : Multiset Int) =
      ↑(indexMatches key t) :=
  searchAux key t h

/-- Witness for the amended C1 theorem on a concrete two-level index. -/
theorem index_probe_exact_multiset_witness :
    IndexTree.wfB c1wIndex = true ∧
    ((IndexTree.search (Value.text "k") c1wIndex : List Int) : Multiset Int) =
      ↑(indexMatches (Value.text "k") c1wIndex) :=
  ⟨by decide, index_probe_exact_multiset (Value.text "k") c1wIndex (by decide)⟩

/-- C1 (counterexample): the index probe's result list is NOT sorted
ascending by rowid.  On the well-formed single-leaf index `c1index`
(entries for key `"k"` in decoded byte-offset order: rowid 2, then
rowid 1) `search_index` returns `[2, 1]`. -/
theorem index_probe_results_unsorted :
    IndexTree.wfB c1index = true ∧
    IndexTree.search (Value.text "k") c1index = [2, 1] ∧
    ¬ List.Sorted (· ≤ ·) (IndexTree.search (Value.text "k") c1index) := by
  refine ⟨by decide, by decide, ?_⟩
  rw [show IndexTree.search (Value.text "k") c1index = [2, 1] from by decide]
  decide

/-- C2: `Database::get_by_row_ids` misses a stored row whose rowid EQUALS
an interior cell's upper-bound key, because the descent test is the
strict `row_ids.iter().any(|id| *id < key)` instead of the claimed
`r ≤ k_c`.  On the well-formed table `c2tree` (interior cell with key 5
over a leaf holding the record with rowid 5) the bounded scan for
`R = [5]` returns the empty list even though the record is stored. -/
theorem bounded_scan_misses_equal_key_row :
    TableTree.wfB 0 c2tree = true ∧
    c2rec5 ∈ TableTree.fullScan c2tree ∧
    recRowId 0 c2rec5 = 5 ∧
    TableTree.getByRowIds [5] 0 c2tree = [] := by
  refine ⟨by decide, by decide, by decide, by decide⟩

/-- C3: the indexed path and the scan path of `Query::execute` are NOT
equivalent as multisets.  On the database `c3table`/`c3index` (row 5 has
`email = "k"`, stored under an interior cell whose upper-bound key is 5)
the scan path returns the matching row while the indexed path loses it
through `get_by_row_ids`. -/
theorem indexed_path_loses_rows_vs_scan :
    TableTree.wfB 0 c3table = true ∧
    IndexTree.wfB c3index = true ∧
    executeScanPath c3table 1 (Value.text "k") = [c3rec5] ∧
    executeIndexedPath c3index c3table 0 (Value.text "k") = [] ∧
    ((executeScanPath c3table 1 (Value.text "k") : List (List Value)) :
        Multiset (List Value)) ≠
      ↑(executeIndexedPath c3index c3table 0 (Value.text "k")) := by
  refine ⟨by decide, by decide, by decide, by decide, ?_⟩
  rw [show executeScanPath c3table 1 (Value.text "k") = [c3rec5] from by decide,
    show executeIndexedPath c3index c3table 0 (Value.text "k") = [] from by decide]
  rw [Ne, Multiset.coe_eq_coe]
  simp

end SrcDb

namespace SrcSchema

/-- Inserting into the sort permutes the element onto the front. -/
theorem insertSorted_perm (a : String) (l : List String) :
    (insertSorted a l).Perm (a :: l) := by
  induction l with
  | nil => exact List.Perm.refl _
  | cons b bs ih =>
    unfold insertSorted
    split_ifs with h
    · exact List.Perm.refl _
    · exact (ih.cons b).trans (List.Perm.swap a b bs)

/-- The modelled `tables.sort()` permutes its input. -/
theorem sortNames_perm (l : List String) : (sortNames l).Perm l := by
  induction l with
  | nil => exact List.Perm.refl _
  | cons a as ih => exact (insertSorted_perm a (sortNames as)).trans (ih.cons a)

/-- Insertion preserves sortedness in the byte-lexicographic order. -/
theorem insertSorted_pairwise (a : String) (l : List String)
    (h : l.Pairwise (fun x y => x.data ≤ y.data)) :
    (insertSorted a l).Pairwise (fun x y => x.data ≤ y.data) := by
  induction l with
  | nil => simp [insertSorted]
  | cons b bs ih =>
    rcases List.pairwise_cons.mp h with ⟨hb, hbs⟩
    unfold insertSorted
    split_ifs with hle
    · have hab : a.data ≤ b.data := by simpa [strLe] using hle
      refine List.pairwise_cons.mpr ⟨?_, h⟩
      intro x hx
      rcases List.mem_cons.mp hx with rfl | hx
      · exact hab
      · exact le_trans hab (hb x hx)
    · have hba : b.data ≤ a.data := by
        have h1 : ¬ a.data ≤ b.data := by simpa [strLe] using hle
        exact le_of_not_le h1
      refine List.pairwise_cons.mpr ⟨?_, ih hbs⟩
      intro x hx
      rcases List.mem_cons.mp ((insertSorted_perm a bs).mem_iff.mp hx) with rfl | hx
      · exact hba
      · exact hb x hx

/-- The modelled `tables.sort()` sorts in the byte-lexicographic order. -/
theorem sortNames_pairwise (l : List String) :
    (sortNames l).Pairwise (fun x y => x.data ≤ y.data) := by
  induction l with
  | nil => simp [sortNames]
  | cons a as ih => exact insertSorted_pairwise a (sortNames as) ih

/-- C9 (counterexample): `.tables` does not print the names in schema
order.  For the schema objects `[table "b", table "a"]`,
`Schema::table_names` returns the re-sorted `["a", "b"]`, not the
schema-order `["b", "a"]`. -/
theorem tables_not_schema_order :
    tableNames [.table "b", .table "a"] = ["a", "b"] ∧
    schemaOrderNames [.table "b", .table "a"] = ["b", "a"] ∧
    tableNames [.table "b", .table "a"] ≠
      schemaOrderNames [.table "b", .table "a"] := by
  refine ⟨by decide, by decide, by decide⟩

/-- C9 (amended): `Schema::table_names` returns the table names SORTED in
ascending byte-lexicographic order — a re-sorted permutation of the
schema-order names; the `.tables` printer joins whatever list it is given
with single spaces. -/
theorem table_names_sorted_permutation (objects : List ObjectSchema) :
    (tableNames objects).Pairwise (fun x y => x.data ≤ y.data) ∧
      (tableNames objects).Perm (schemaOrderNames objects) :=
  ⟨sortNames_pairwise _, sortNames_perm _⟩

end SrcSchema

namespace CtxSQLite

/-- C10: `SQLite::page(n)` can return a decoded page only when
`n < header.db_page_count` (the length of the array `SQLite::new`
allocates), and for every `n` at or beyond `db_page_count` the unchecked
slice index panics (`crash`) instead of returning an error result. -/
theorem page_bounds {P : Type} (load : Nat → PageResult P) (count n : Nat) :
    (count ≤ n → sqlitePage (sqliteNew P count) load n = .crash) ∧
    (∀ p, sqlitePage (sqliteNew P count) load n = .ok p → n < count) := by
  have hlen : (sqliteNew P count).length = count := by
    simp [sqliteNew]
  constructor
  · intro h
    have hnone : (sqliteNew P count).get? n = none :=
      List.get?_eq_none.mpr (by rw [hlen]; exact h)
    unfold sqlitePage
    rw [hnone]
  · intro p hp
    by_contra hlt
    have h : count ≤ n := le_of_not_lt hlt
    have hnone : (sqliteNew P count).get? n = none :=
      List.get?_eq_none.mpr (by rw [hlen]; exact h)
    unfold sqlitePage at hp
    rw [hnone] at hp
    exact PageResult.noConfusion hp

/-- Witness for C10 at a concrete two-page database: page 5 panics, and
page 1 loading fine is consistent with the bound. -/
theorem page_bounds_witness :
    sqlitePage (sqliteNew Unit 2) (fun _ => PageResult.ok ()) 5 =
        PageResult.crash ∧ 1 < 2 :=
  ⟨(page_bounds (fun _ => PageResult.ok ()) 2 5).1 (by decide),
    (page_bounds (fun _ => PageResult.ok ()) 2 1).2 () rfl⟩

end CtxSQLite

/-- C6: for byte sequences accepted by the varint decoders, between 1 and 9
bytes are consumed and the first up-to-8 bytes contribute their low 7
bits — but in `src/src/varint.rs` the 9th byte is masked with `0x7f` and
contributes only its LOW 7 BITS, not all 8.  On the nine-byte input
`80 80 80 80 80 80 80 80 FF` the claimed decoding (9th byte contributes
all 8 bits, as `src/context/varint.rs` implements) is 255, while `varint`
returns 127. -/
theorem varint_ninth_byte_masked :
    SrcVarint.varint
        [0x80, 0x80, 0x80, 0x80, 0x80, 0x80, 0x80, 0x80, 0xFF] =
      some (9, 127) ∧
    CtxVarint.readVarint
        [0x80, 0x80, 0x80, 0x80, 0x80, 0x80, 0x80, 0x80, 0xFF] =
      some (255, 9) := by
  constructor <;> decide

/-- C5: serial type 8 decodes to the integer 0 and consumes no payload
bytes, as claimed — but serial type 9 ALSO decodes to `Integer(0)` in
`src/src/record.rs` (its `ColumnType::One` arm pushes `Value::Integer(0i64)`),
not to the integer 1 required by the claim and by the SQLite format.  The
record below (rowid 1, header `[3, 9, 8]`, empty payload) decodes both of
its columns to 0. -/
theorem serial_type_nine_decodes_to_zero :
    SrcRecord.ColumnType.tryFrom 9 = some .one ∧
    SrcRecord.recordParse [1, 3, 9, 8] ["a", "b"] [0, 1] .table =
      .ok [] ⟨[.integer 0, .integer 0]⟩ := by
  constructor <;> decide

/-- C8: a 100-byte file header whose magic string differs from the fixed
literal, or whose max payload fraction differs from 64, makes
`Header::parse` terminate via an `assert_eq!` PANIC (modelled `crash`),
not via an `InvalidHeader` error result as the claim requires.  The
first input is all zeros (bad magic); the second has valid magic, page
size 512, versions 1/1, reserved 0, but max payload fraction 63. -/
theorem header_asserts_panic_on_bad_magic_and_fractions :
    SrcHeader.headerParse (List.replicate 100 0) = .crash ∧
    SrcHeader.headerParse
        (SrcHeader.magicBytes ++ [2, 0, 1, 1, 0, 63, 32, 32] ++ List.replicate 76 0) =
      .crash := by
  constructor <;> decide

/-- C7: a cell whose declared payload size exceeds the in-page capacity is
not failed cleanly with an overflow error.  In `src/src/cell.rs`,
`Cell::parse` hits `todo!` — an unclean panic (first conjunct: usable
page size 512, capacity x = 477, declared payload 478).  In
`src/context/sqlite.rs`, `LeafTableCell::from_bytes` records the overflow
descriptor but SILENTLY TRUNCATES the payload to the in-page prefix and
returns `Ok` with the truncated record (second conjunct: declared payload
32, in-page bytes 6, record decoded from the 2-byte prefix, overflow page
5, 30 spilled bytes) — and no caller in `src/src/db.rs` ever inspects the
overflow field. -/
theorem overflow_not_failed_cleanly :
    SrcCell.cellParse [0x83, 0x5E] .tableLeaf 512 ["id"] [0] = .crash ∧
    CtxCell.leafTableFromBytes [0x20, 0x07, 0x02, 0x08, 0, 0, 0, 5] =
      .ok [] ⟨7, [.int 0], some (5, 30)⟩ := by
  constructor <;> decide

/-- C4 (counterexample): rowid-alias substitution does NOT happen exactly
when the first value of a table-leaf record is NULL.  In
`src/src/record.rs` the substitution is keyed on the projected column
name `"id"`: a first-column NULL projected under the name `"name"` stays
`Null` (first conjunct, rowid 7), while a SECOND-column NULL named `"id"`
IS substituted (second conjunct).  In `src/context/sqlite.rs` the
first-value rule is applied to every record kind: a leaf-INDEX cell whose
first column is NULL gets the substitute `Int(0)` (third conjunct —
record `[NULL, 9]`, whose trailing 9 is the stripped rowid). -/
theorem rowid_alias_not_first_null :
    SrcRecord.recordParse [7, 2, 0] ["name"] [0] .table = .ok [] ⟨[.null]⟩ ∧
    SrcRecord.recordParse [7, 3, 1, 0, 42] ["a", "id"] [0, 1] .table =
      .ok [] ⟨[.integer 42, .integer 7]⟩ ∧
    CtxCell.leafIndexFromBytes [4, 3, 0, 1, 9] =
      .ok [] ⟨9, [.int 0], none⟩ := by
  refine ⟨by decide, by decide, by decide⟩

/-- C4 (amended): in `Record::parse` of `src/src/record.rs` the
substitution applies exactly to NULL-typed columns of TABLE records whose
projected column name is `"id"` — at any position, first or not — and
never to index records; in `Record::from_bytes` of
`src/context/sqlite.rs` it applies exactly to the first decoded value
when it is NULL, for every record kind and every rowid, with `row_id = 0`
supplied by the index-cell callers.  Conjuncts: a first-column NULL is
substituted iff named `"id"` (1, 2); a second-column NULL named `"id"` is
substituted (3); an index record is never substituted, even under the
name `"id"` (4); the context decoder substitutes the first NULL for every
rowid (5) and leaves a non-first NULL alone (6). -/
theorem rowid_alias_characterization (rowId : Nat) :
    SrcRecord.recordParse [7, 2, 0] ["id"] [0] .table =
      .ok [] ⟨[.integer 7]⟩ ∧
    SrcRecord.recordParse [7, 2, 0] ["name"] [0] .table =
      .ok [] ⟨[.null]⟩ ∧
    SrcRecord.recordParse [7, 3, 1, 0, 42] ["a", "id"] [0, 1] .table =
      .ok [] ⟨[.integer 42, .integer 7]⟩ ∧
    SrcRecord.recordParse [2, 0] ["id"] [0] .index = .ok [] ⟨[.null]⟩ ∧
    CtxRecord.fromBytes rowId [2, 0] = .ok [] [.int (rowId : Int)] ∧
    CtxRecord.fromBytes rowId [3, 8, 0] = .ok [] [.int 0, .null] := by
  exact ⟨by decide, by decide, by decide, by decide, rfl, rfl⟩
